/-
Verification of the Scramble security-validation and metadata pipeline
(src/src/security_validators.py and src/src/metadata.py).

The Python code is shallowly embedded: paths and strings are lists of
characters, bytes are lists of naturals, and every OS / library call that
the code treats as an oracle (os.path.exists, PIL Image.open, piexif.load,
mimetypes.guess_type, ...) is a field of an explicit environment structure,
so that each Python function becomes a pure total Lean function of that
environment.  Python floats produced by exact integer division are modelled
by exact integer arithmetic (numerator / denominator), and the `%.6g` /
`%.1f` formatting is implemented over integers with round-half-to-even,
matching CPython on the values exercised here.
-/
import Mathlib

namespace Scramble

/-- A filesystem path, as the list of its characters. -/
abbrev Path := List Char

/-- ASCII lower-casing of one character, modelling Python `str.lower` on the
ASCII range (the only range exercised by the extension checks). -/
def pyLowerChar (c : Char) : Char :=
  if 'A' ≤ c ∧ c ≤ 'Z' then Char.ofNat (c.toNat + 32) else c

/-- `path.lower()` on the character list. -/
def pyLower (s : List Char) : List Char := s.map pyLowerChar

/-- Python `s.endswith(t)`: `t` is a trailing segment of `s`. -/
def endsWithL (s t : List Char) : Bool := s.drop (s.length - t.length) == t

/-- The NUL character. -/
def nulChar : Char := Char.ofNat 0

/-- Characters stripped by Python `str.strip()` (the Unicode white-space
set used by CPython). -/
def pyIsSpace (c : Char) : Bool :=
  decide ((9 ≤ c.toNat ∧ c.toNat ≤ 13) ∨ (28 ≤ c.toNat ∧ c.toNat ≤ 32) ∨
    c.toNat = 133 ∨ c.toNat = 160 ∨ c.toNat = 5760 ∨
    (8192 ≤ c.toNat ∧ c.toNat ≤ 8202) ∨ c.toNat = 8232 ∨ c.toNat = 8233 ∨
    c.toNat = 8239 ∨ c.toNat = 8287 ∨ c.toNat = 12288)

/-- Remove the characters satisfying `f` from both ends of a list
(Python `str.strip(chars)`). -/
def stripBoth (f : Char → Bool) (s : List Char) : List Char :=
  ((s.dropWhile f).reverse.dropWhile f).reverse

/-- Python `s.strip('\x00')`. -/
def stripNul (s : List Char) : List Char := stripBoth (fun c => c == nulChar) s

/-- Python `s.strip()`. -/
def pyStrip (s : List Char) : List Char := stripBoth pyIsSpace s

/-- Decimal digit characters of a natural number, most significant first. -/
def natToChars (n : Nat) : List Char := Nat.toDigits 10 n

/-- Python `str` of an `int`. -/
def intToStr (i : Int) : List Char :=
  if i < 0 then '-' :: natToChars i.natAbs else natToChars i.natAbs

/-- Number of decimal digits of `n` (1 for 0). -/
def numDigits (n : Nat) : Nat := (natToChars n).length

/-- Strict UTF-8 decoding with explicit fuel (one unit per leading byte),
modelling Python `bytes.decode('utf-8')`: rejects stray continuation
bytes, overlong forms, surrogates and code points above U+10FFFF. -/
def utf8DecodeFuel : Nat → List Nat → Option (List Char)
  | 0, [] => some []
  | 0, _ :: _ => none
  | _ + 1, [] => some []
  | fuel + 1, b :: rest =>
    if b < 128 then (utf8DecodeFuel fuel rest).map (fun cs => Char.ofNat b :: cs)
    else if b < 194 then none
    else if b ≤ 223 then
      match rest with
      | c1 :: rest2 =>
        if 128 ≤ c1 ∧ c1 ≤ 191 then
          (utf8DecodeFuel fuel rest2).map
            (fun cs => Char.ofNat ((b - 192) * 64 + (c1 - 128)) :: cs)
        else none
      | [] => none
    else if b ≤ 239 then
      match rest with
      | c1 :: c2 :: rest3 =>
        let lo := if b = 224 then 160 else 128
        let hi := if b = 237 then 159 else 191
        if lo ≤ c1 ∧ c1 ≤ hi ∧ 128 ≤ c2 ∧ c2 ≤ 191 then
          (utf8DecodeFuel fuel rest3).map
            (fun cs => Char.ofNat ((b - 224) * 4096 + (c1 - 128) * 64 + (c2 - 128)) :: cs)
        else none
      | _ => none
    else if b ≤ 244 then
      match rest with
      | c1 :: c2 :: c3 :: rest4 =>
        let lo := if b = 240 then 144 else 128
        let hi := if b = 244 then 143 else 191
        if lo ≤ c1 ∧ c1 ≤ hi ∧ 128 ≤ c2 ∧ c2 ≤ 191 ∧ 128 ≤ c3 ∧ c3 ≤ 191 then
          (utf8DecodeFuel fuel rest4).map
            (fun cs => Char.ofNat
              ((b - 240) * 262144 + (c1 - 128) * 4096 + (c2 - 128) * 64 + (c3 - 128)) :: cs)
        else none
      | _ => none
    else none

/-- Python `bytes.decode('utf-8')` (`none` models `UnicodeDecodeError`). -/
def utf8Decode (bs : List Nat) : Option (List Char) := utf8DecodeFuel bs.length bs

/-- Python `bytes.decode('latin-1')`.  The latin-1 codec maps every byte
value 0..255 to the code point of the same value and can never fail, so the
result is always `some`; the `Option` mirrors the `except
UnicodeDecodeError` structure of the source. -/
def latin1Decode (bs : List Nat) : Option (List Char) :=
  some (bs.map (fun b => Char.ofNat b))

/-- The `"<binary data: {N} bytes>"` placeholder string. -/
def binaryMsg (n : Nat) : List Char :=
  "<binary data: ".data ++ natToChars n ++ " bytes>".data

/-- Round `num / den` to the nearest integer, ties to even
(the rounding used by CPython float formatting on exact values). -/
def roundHalfEvenN (num den : Nat) : Nat :=
  let q := num / den
  let r := num % den
  if den < 2 * r then q + 1
  else if 2 * r < den then q
  else if q % 2 = 0 then q else q + 1

/-- Drop trailing `'0'` characters (the `%g` trailing-zero removal). -/
def stripTrailingZeros (l : List Char) : List Char :=
  (l.reverse.dropWhile (fun c => c == '0')).reverse

/-- Minimal `k` with `n * 10^k ≥ d`, for `0 < n < d` (the negative decimal
exponent of `n / d`). -/
def smallNegExp (n d : Nat) : Nat :=
  match (List.range (numDigits d + 2)).find? (fun k => decide (d ≤ n * 10 ^ k)) with
  | some k => k
  | none => numDigits d + 2

/-- Fixed-point rendering of 6 significant digits `ds` with decimal
exponent `e` (`-4 ≤ e < 6`). -/
def fixedNot (ds : List Char) (e : Int) : List Char :=
  if 0 ≤ e then
    let ip := ds.take (e.toNat + 1)
    let fp := stripTrailingZeros (ds.drop (e.toNat + 1))
    if fp = [] then ip else ip ++ '.' :: fp
  else
    '0' :: '.' :: stripTrailingZeros (List.replicate ((-e).toNat - 1) '0' ++ ds)

/-- Scientific rendering of 6 significant digits `ds` with exponent `e`. -/
def sciNot (ds : List Char) (e : Int) : List Char :=
  let fp := stripTrailingZeros (ds.drop 1)
  let mant := if fp = [] then ds.take 1 else ds.take 1 ++ '.' :: fp
  let edig := natToChars e.natAbs
  let edig2 := if edig.length < 2 then '0' :: edig else edig
  mant ++ 'e' :: (if e < 0 then '-' else '+') :: edig2

/-- Python `f"{n/d:.6g}"` for a positive non-integral exact quotient
`n / d` (`0 < n`, `0 < d`, `d` does not divide `n`). -/
def sixSig (n d : Nat) : List Char :=
  let e : Int := if d ≤ n then (numDigits (n / d) : Int) - 1 else -(smallNegExp n d : Int)
  let scaled : Nat × Nat :=
    if e ≤ 5 then (n * 10 ^ (5 - e).toNat, d) else (n, d * 10 ^ (e - 5).toNat)
  let m := roundHalfEvenN scaled.1 scaled.2
  let me : Nat × Int := if m = 1000000 then (100000, e + 1) else (m, e)
  let ds := natToChars me.1
  if me.2 < -4 ∨ 6 ≤ me.2 then sciNot ds me.2 else fixedNot ds me.2

/-- The two-integer ("rational") branch of `format_metadata_value` for a
nonzero denominator: `result = value[0] / value[1]`, rendered
`str(int(result))` when the quotient is exact and `f"{result:.6g}"`
otherwise.  Exact integer arithmetic stands in for the float division. -/
def formatRational (a b : Int) : List Char :=
  if Int.emod a b = 0 then intToStr (Int.ediv a b)
  else
    let s := sixSig a.natAbs b.natAbs
    if decide (a < 0) ≠ decide (b < 0) then '-' :: s else s

/-- A raw EXIF value as seen by `format_metadata_value`
(`None`, `bytes`, `tuple`, `list`, `str`, or `int`). -/
inductive Value where
  | vnone
  | bytes (bs : List Nat)
  | tup (vs : List Value)
  | vlist (vs : List Value)
  | vstr (s : List Char)
  | vint (n : Int)

/-- `', '.join(item for item in items if item)`. -/
def joinComma (xs : List (List Char)) : List Char :=
  List.intercalate ", ".data (xs.filter (fun x => x ≠ []))

mutual
/-- `MetadataHandler.format_metadata_value` (metadata.py, lines 260-311). -/
def format_metadata_value : Value → List Char
  | .vnone => []
  | .bytes bs =>
    match utf8Decode bs with
    | some d =>
      let decoded := stripNul d
      if decoded = [] then [] else decoded
    | none =>
      match latin1Decode bs with
      | some d =>
        let decoded := stripNul d
        if decoded = [] then [] else decoded
      | none => binaryMsg bs.length
  | .tup vs =>
    match vs with
    | [.vint a, .vint b] => if b ≠ 0 then formatRational a b else intToStr a
    | _ => joinComma (formatListVals vs)
  | .vlist vs => joinComma (formatListVals vs)
  | .vstr s => pyStrip (stripNul s)
  | .vint n =>
    let s := pyStrip (intToStr n)
    if s = [] then [] else s

/-- Pointwise formatting of the elements of a tuple or list. -/
def formatListVals : List Value → List (List Char)
  | [] => []
  | v :: vs => format_metadata_value v :: formatListVals vs
end

example : format_metadata_value .vnone = "".data := by decide
example : format_metadata_value (.tup [.vint 100, .vint 1]) = "100".data := by decide
example : format_metadata_value (.tup [.vint 1, .vint 100]) = "0.01".data := by decide
example : format_metadata_value (.tup [.vint 100, .vint 0]) = "100".data := by decide
example : format_metadata_value (.bytes [116, 101, 115, 116, 0]) = "test".data := by decide
example : format_metadata_value (.tup [.vint 1, .vint 3]) = "0.333333".data := by decide

/-! ## Paths and the filesystem environment -/

/-- The part after the last `'/'` (POSIX `os.path.basename`). -/
def basenameP (p : Path) : Path :=
  p.foldl (fun acc c => if c = '/' then [] else acc ++ [c]) []

/-- Index of the last `'/'` in `p`, if any. -/
def lastSlashIdx (p : Path) : Option Nat :=
  (p.reverse.findIdx? (fun c => c = '/')).map (fun j => p.length - 1 - j)

/-- POSIX `os.path.dirname`: everything up to the last `'/'`, with trailing
slashes stripped unless the result is all slashes. -/
def dirnameP (p : Path) : Path :=
  match lastSlashIdx p with
  | none => []
  | some i =>
    let head := p.take (i + 1)
    if head ≠ [] ∧ ¬ head.all (fun c => c = '/') then
      (head.reverse.dropWhile (fun c => c == '/')).reverse
    else head

/-- The extension produced by `os.path.splitext(p)[1]`: the part of the
basename from its last dot on, unless every character before that dot in
the basename is itself a dot. -/
def splitextExt (p : Path) : Path :=
  let b := basenameP p
  match (b.reverse.findIdx? (fun c => c = '.')).map (fun j => b.length - 1 - j) with
  | none => []
  | some i => if (b.take i).all (fun c => c = '.') ∧ b.take i ≠ [] then []
              else if i = 0 then [] else b.drop i

/-- `SecurityValidator.supported_formats`. -/
def supported_formats : List (List Char) :=
  [".jpg".data, ".jpeg".data, ".tiff".data, ".tif".data]

/-- `SecurityValidator.supported_mimes`. -/
def supported_mimes : List String := ["image/jpeg", "image/tiff"]

/-- `SecurityValidator.max_file_size` (100 MiB). -/
def max_file_size : Nat := 100 * 1024 * 1024

/-- `SecurityValidator.max_dimension`. -/
def max_dimension : Int := 50000

/-- `SecurityValidator.max_pixels`. -/
def max_pixels : Int := 100000000

/-- What `Image.open` reports about a file: size, color mode and declared
format (`img.format` may be `None`). -/
structure ImgInfo where
  width : Int
  height : Int
  mode : String
  fmt : Option String
deriving DecidableEq

/-- The filesystem / library environment a validation call runs against.
Each field models one OS or library oracle used by the Python code; the two
propositional fields record facts of POSIX path canonicalization that
`os.path.realpath` guarantees: canonicalizing twice equals canonicalizing
once, and `realpath (abspath p) = realpath p`. -/
structure FS where
  pexists : Path → Bool
  realpath : Path → Path
  abspath : Path → Path
  isfile : Path → Bool
  readable : Path → Bool
  fsize : Path → Nat
  mime : Path → Option String
  headerRaises : Path → Bool
  headerB : Path → List Nat
  hasPIL : Bool
  img : Path → Option ImgInfo
  writableDir : Path → Bool
  sanitizeRaises : Path → Bool
  piexifRemoveOk : Path → Path → Bool
  pillowSaveOk : Path → Bool
  realpath_idem : ∀ p, realpath (realpath p) = realpath p
  realpath_abs : ∀ p, realpath (abspath p) = realpath p

/-- `SecurityValidator._is_supported_format`. -/
def is_supported_format (p : Path) : Bool :=
  if p = [] then false
  else supported_formats.contains (pyLower (splitextExt p))

/-- Does the lowered path end in `.jpg` or `.jpeg`? -/
def jpgExt (p : Path) : Bool :=
  endsWithL (pyLower p) ".jpg".data || endsWithL (pyLower p) ".jpeg".data

/-- Does the lowered path end in `.tiff` or `.tif`? -/
def tifExt (p : Path) : Bool :=
  endsWithL (pyLower p) ".tiff".data || endsWithL (pyLower p) ".tif".data

/-- The JPEG magic marker `FF D8 FF`. -/
def jpegMagic : List Nat := [255, 216, 255]

/-- The little-endian TIFF byte-order marker `49 49 2A 00` (`II*\x00`). -/
def tiffMagicLE : List Nat := [73, 73, 42, 0]

/-- The big-endian TIFF byte-order marker `4D 4D 00 2A` (`MM\x00*`). -/
def tiffMagicBE : List Nat := [77, 77, 0, 42]

/-- `SecurityValidator._validate_file_header` (security_validators.py,
lines 97-125), applied to the first (at most 16) bytes `hdr` of the file. -/
def validate_file_header (hdr : List Nat) (p : Path) : Bool :=
  if hdr.length < 4 then false
  else if hdr.take 3 == jpegMagic then jpgExt p
  else if hdr.take 4 == tiffMagicLE || hdr.take 4 == tiffMagicBE then tifExt p
  else false

/-- `_validate_file_header` including its `except` branch (a failed open or
read returns `False`). -/
def headerCheck (fs : FS) (p : Path) : Bool :=
  if fs.headerRaises p then false else validate_file_header (fs.headerB p) p

/-- The color-mode allow-list of `_validate_image_properties`. -/
def validModes : List String := ["RGB", "RGBA", "L", "P", "CMYK", "YCbCr", "LAB", "HSV"]

/-- `SecurityValidator._validate_image_properties` (security_validators.py,
lines 127-173).  Without PIL the check degrades to a pass; a failing
`Image.open` (`fs.img p = none`) lands in the `except` branch and fails. -/
def validate_image_properties (fs : FS) (p : Path) : Bool :=
  if ¬ fs.hasPIL then true
  else match fs.img p with
    | none => false
    | some i =>
      if i.width ≤ 0 ∨ i.height ≤ 0 then false
      else if max_dimension < i.width ∨ max_dimension < i.height then false
      else if max_pixels < i.width * i.height then false
      else if ¬ validModes.contains i.mode then false
      else match i.fmt with
        | some f => f = "JPEG" ∨ f = "TIFF"
        | none => false

/-- The MIME check `mime_type in self.supported_mimes` (a `None` guess is
not in the set). -/
def mimeOk (m : Option String) : Bool :=
  match m with
  | some s => supported_mimes.contains s
  | none => false

/-- The f-string `"File too large (max {self.max_file_size // (1024*1024)}MB)"`. -/
def tooLargeMsg : String :=
  "File too large (max " ++ toString (max_file_size / (1024 * 1024)) ++ "MB)"

/-- `SecurityValidator.validate_file_security` (security_validators.py,
lines 33-88): `none` means validation passed, `some msg` is the `error`
message.  The oracles never raise in the model, so the final generic
`except` branch of the source is unreachable here. -/
def validate_file_security (fs : FS) (p : Path) : Option String :=
  if ¬ fs.pexists p then some "File does not exist"
  else if ¬ fs.pexists (fs.realpath p) then some "Invalid file path"
  else if ¬ fs.isfile (fs.realpath p) then some "Path is not a regular file"
  else if ¬ fs.readable (fs.realpath p) then some "File is not readable"
  else if fs.fsize (fs.realpath p) = 0 then some "File is empty"
  else if max_file_size < fs.fsize (fs.realpath p) then some tooLargeMsg
  else if ¬ is_supported_format (fs.realpath p) then some "Unsupported file format"
  else if ¬ mimeOk (fs.mime (fs.realpath p)) then some "Invalid MIME type for file"
  else if ¬ headerCheck fs (fs.realpath p) then
    some "Invalid file header - possible file type mismatch"
  else if ¬ validate_image_properties fs (fs.realpath p) then
    some "Invalid or potentially malicious image"
  else none

/-- `SecurityValidator.sanitize_path` (security_validators.py, lines
175-194): `realpath(abspath(path))`, or `""` for an empty path or a failed
canonicalization. -/
def sanitize_path (fs : FS) (p : Path) : Path :=
  if p = [] then []
  else if fs.sanitizeRaises p then []
  else fs.realpath (fs.abspath p)

/-- `SecurityValidator.validate_output_path` (security_validators.py,
lines 196-235). -/
def validate_output_path (fs : FS) (outp inp : Path) : Option String :=
  if outp = [] then some "Output path is empty"
  else if sanitize_path fs outp = [] then some "Invalid output path"
  else if ¬ fs.pexists (dirnameP (sanitize_path fs outp)) then
    some "Output directory does not exist"
  else if ¬ fs.writableDir (dirnameP (sanitize_path fs outp)) then
    some "Output directory is not writable"
  else if fs.realpath (sanitize_path fs outp) = fs.realpath inp then
    some "Cannot overwrite input file"
  else none

/-- `MetadataHandler.remove_metadata` (metadata.py, lines 171-235): the
boolean outcome together with the list of paths written to (empty until
both validations have passed). -/
def remove_metadata (fs : FS) (inp outp : Path) : Bool × List Path :=
  match validate_file_security fs inp with
  | some _ => (false, [])
  | none =>
    match validate_output_path fs outp inp with
    | some _ => (false, [])
    | none =>
      if fs.piexifRemoveOk inp outp then (true, [outp])
      else
        match fs.img inp with
        | none => (false, [])
        | some _ => if fs.pillowSaveOk outp then (true, [outp]) else (false, [outp])

/-! ## Metadata extraction -/

/-- A value of a `MetadataDocument`: either a bare message string (the
`error` / `info` entries) or a section of tag-name/display-string pairs. -/
inductive DocVal where
  | msg (s : String)
  | sec (entries : List (String × List Char))
deriving DecidableEq

/-- A Python dict in insertion order. -/
abbrev Doc := List (String × DocVal)

/-- Python `d[k] = v` on a dict kept as an insertion-ordered list:
replace the value at an existing key, else append. -/
def dictInsert {α β : Type} [DecidableEq α] : List (α × β) → α → β → List (α × β)
  | [], k, v => [(k, v)]
  | (k0, v0) :: t, k, v =>
    if k0 = k then (k0, v) :: t else (k0, v0) :: dictInsert t k v

/-- The shared per-tag loop body of `_process_piexif_data` and
`_process_pillow_exif`: resolve the tag name (skipping the tag when
`nameOf` yields none, as the piexif loop does for tags missing from
`piexif.TAGS`), format the value, and keep it only when
`formatted_value and formatted_value.strip()` is truthy. -/
def buildSec (nameOf : Nat → Option String) :
    List (Nat × Value) → List (String × List Char) → List (String × List Char)
  | [], acc => acc
  | (tid, v) :: rest, acc =>
    match nameOf tid with
    | none => buildSec nameOf rest acc
    | some nm =>
      if format_metadata_value v ≠ [] ∧ pyStrip (format_metadata_value v) ≠ [] then
        buildSec nameOf rest (dictInsert acc nm (format_metadata_value v))
      else buildSec nameOf rest acc

/-- `MetadataHandler.section_names.get(ifd, ifd)`. -/
def sectionName (ifd : String) : String :=
  if ifd = "0th" then "EXIF"
  else if ifd = "Exif" then "EXIF Details"
  else if ifd = "GPS" then "GPS Location"
  else if ifd = "1st" then "Thumbnail"
  else if ifd = "Interop" then "Interoperability"
  else ifd

/-- The fixed IFD iteration order of `_process_piexif_data`. -/
def ifdOrder : List String := ["0th", "Exif", "GPS", "1st", "Interop"]

/-- The per-IFD loop of `_process_piexif_data`: a section is added only
when it ends up non-empty. -/
def buildPiexif (tags : String → Nat → Option String)
    (d : String → List (Nat × Value)) : List String → Doc → Doc
  | [], acc => acc
  | ifd :: rest, acc =>
    if buildSec (tags ifd) (d ifd) [] ≠ [] then
      buildPiexif tags d rest
        (dictInsert acc (sectionName ifd) (DocVal.sec (buildSec (tags ifd) (d ifd) [])))
    else buildPiexif tags d rest acc

/-- `MetadataHandler._process_piexif_data` (metadata.py, lines 94-117).
`d ifd` is the tag list of the IFD (empty both for an absent key and for
an empty dict, which the `if ifd in exif_dict and exif_dict[ifd]` guard
treats alike). -/
def process_piexif_data (tags : String → Nat → Option String)
    (d : String → List (Nat × Value)) : Doc :=
  buildPiexif tags d ifdOrder []

/-- `TAGS.get(tag_id, f"Tag_{tag_id}")`. -/
def pillowTagName (tags : Nat → Option String) (tid : Nat) : String :=
  (tags tid).getD ("Tag_" ++ toString tid)

/-- `MetadataHandler._process_pillow_exif` (metadata.py, lines 119-143).
`o = none` models `Image.open` / `getexif` raising (the internal `except`
returns the empty dict); `some []` is a falsy `exif_data`. -/
def process_pillow_exif (tags : Nat → Option String)
    (o : Option (List (Nat × Value))) : Doc :=
  match o with
  | none => []
  | some [] => []
  | some exif =>
    if buildSec (fun tid => some (pillowTagName tags tid)) exif [] ≠ [] then
      [("EXIF (Pillow)", DocVal.sec (buildSec (fun tid => some (pillowTagName tags tid)) exif []))]
    else []

/-- `f"{n/d:.1f}"` for naturals, via round-half-to-even on the exact
quotient (matching CPython on the byte sizes exercised here). -/
def fixed1 (n d : Nat) : List Char :=
  let r := roundHalfEvenN (10 * n) d
  natToChars (r / 10) ++ '.' :: natToChars (r % 10)

/-- The human-readable size string of `_get_file_info`. -/
def sizeStr (n : Nat) : List Char :=
  if n < 1024 then natToChars n ++ " bytes".data
  else if n < 1024 * 1024 then fixed1 n 1024 ++ " KB".data
  else fixed1 n (1024 * 1024) ++ " MB".data

/-- `img.format or 'Unknown'` (`or` replaces both `None` and `""`). -/
def fmtOrUnknown (f : Option String) : List Char :=
  match f with
  | some s => if s = "" then "Unknown".data else s.data
  | none => "Unknown".data

/-- `MetadataHandler._get_file_info` (metadata.py, lines 145-169).  A
failing `Image.open` (or `os.stat`) lands in the `except` branch, which
returns the empty dict. -/
def get_file_info (fs : FS) (p : Path) : List (String × List Char) :=
  match fs.img p with
  | none => []
  | some i =>
    [("Filename", basenameP p),
     ("File Size", sizeStr (fs.fsize p)),
     ("Image Size", intToStr i.width ++ " x ".data ++ intToStr i.height ++ " pixels".data),
     ("Format", fmtOrUnknown i.fmt),
     ("Mode", i.mode.data)]

/-- Environment of one `extract_metadata` call: the filesystem oracles,
the input path, the piexif result (`none` = `piexif.load` raised), the two
static tag-name tables, and the Pillow fallback result. -/
structure ExtractEnv where
  fs : FS
  path : Path
  piexifLoad : Option (String → List (Nat × Value))
  piexifTags : String → Nat → Option String
  pillowTags : Nat → Option String
  pillowOpen : Option (List (Nat × Value))

/-- The metadata accumulated by the two guarded decoder attempts of
`extract_metadata`: the piexif result when `piexif.load` succeeded,
otherwise the Pillow fallback (whose own failure yields the empty dict). -/
def extract_m1 (env : ExtractEnv) : Doc :=
  match env.piexifLoad with
  | some d => process_piexif_data env.piexifTags d
  | none => process_pillow_exif env.pillowTags env.pillowOpen

/-- The decoder metadata plus the `File Info` section (added only when
file-info gathering produced a non-empty dict). -/
def extract_m2 (env : ExtractEnv) : Doc :=
  let fi := get_file_info env.fs env.path
  if fi ≠ [] then dictInsert (extract_m1 env) "File Info" (DocVal.sec fi)
  else extract_m1 env

/-- `MetadataHandler.extract_metadata` (metadata.py, lines 51-92). -/
def extract_metadata (env : ExtractEnv) : Doc :=
  match validate_file_security env.fs env.path with
  | some e => [("error", DocVal.msg e)]
  | none =>
    if extract_m2 env ≠ [] then extract_m2 env
    else [("info", DocVal.msg "No metadata found")]

/-! ## Helper lemmas -/

theorem dropWhile_eq_self_of_head {f : Char → Bool} {s : List Char}
    (h : ∀ c, s.head? = some c → f c = false) : s.dropWhile f = s := by
  cases s with
  | nil => rfl
  | cons a t => simp [List.dropWhile_cons, h a rfl]

theorem stripBoth_eq_self {f : Char → Bool} {s : List Char}
    (h1 : ∀ c, s.head? = some c → f c = false)
    (h2 : ∀ c, s.getLast? = some c → f c = false) : stripBoth f s = s := by
  unfold stripBoth
  rw [dropWhile_eq_self_of_head h1,
    dropWhile_eq_self_of_head (fun c hc => h2 c (by rwa [List.head?_reverse] at hc)),
    List.reverse_reverse]

theorem mem_dictInsert {α β : Type} [DecidableEq α] {l : List (α × β)} {k : α}
    {v : β} {p : α × β} (h : p ∈ dictInsert l k v) : p ∈ l ∨ p = (k, v) := by
  induction l with
  | nil => simpa [dictInsert] using h
  | cons hd t ih =>
    obtain ⟨k0, v0⟩ := hd
    simp only [dictInsert] at h
    by_cases hk : k0 = k
    · rw [if_pos hk] at h
      rcases List.mem_cons.mp h with h | h
      · right; rw [hk] at h; exact h
      · left; exact List.mem_cons_of_mem _ h
    · rw [if_neg hk] at h
      rcases List.mem_cons.mp h with h | h
      · left; rw [h]; exact List.mem_cons_self _ _
      · rcases ih h with h1 | h2
        · left; exact List.mem_cons_of_mem _ h1
        · right; exact h2

theorem buildSec_cons_none {nameOf : Nat → Option String} {tid : Nat} {v : Value}
    {rest : List (Nat × Value)} {acc : List (String × List Char)}
    (hn : nameOf tid = none) :
    buildSec nameOf ((tid, v) :: rest) acc = buildSec nameOf rest acc := by
  rw [buildSec, hn]

theorem buildSec_cons_some {nameOf : Nat → Option String} {tid : Nat} {v : Value}
    {rest : List (Nat × Value)} {acc : List (String × List Char)} {nm : String}
    (hn : nameOf tid = some nm) :
    buildSec nameOf ((tid, v) :: rest) acc =
      if format_metadata_value v ≠ [] ∧ pyStrip (format_metadata_value v) ≠ [] then
        buildSec nameOf rest (dictInsert acc nm (format_metadata_value v))
      else buildSec nameOf rest acc := by
  rw [buildSec, hn]

theorem mem_buildSec {nameOf : Nat → Option String} {entries : List (Nat × Value)}
    {acc : List (String × List Char)} {p : String × List Char}
    (h : p ∈ buildSec nameOf entries acc) :
    p ∈ acc ∨ ∃ q ∈ entries, nameOf q.1 = some p.1 ∧
      p.2 = format_metadata_value q.2 ∧ p.2 ≠ [] ∧ pyStrip p.2 ≠ [] := by
  induction entries generalizing acc with
  | nil => left; simpa [buildSec] using h
  | cons e rest ih =>
    obtain ⟨tid, v⟩ := e
    cases hn : nameOf tid with
    | none =>
      rw [buildSec_cons_none hn] at h
      rcases ih h with h1 | ⟨q, hq, hrest⟩
      · left; exact h1
      · right; exact ⟨q, List.mem_cons_of_mem _ hq, hrest⟩
    | some nm =>
      rw [buildSec_cons_some hn] at h
      by_cases hc : format_metadata_value v ≠ [] ∧ pyStrip (format_metadata_value v) ≠ []
      · rw [if_pos hc] at h
        rcases ih h with h1 | ⟨q, hq, hrest⟩
        · rcases mem_dictInsert h1 with h2 | h2
          · left; exact h2
          · right
            refine ⟨(tid, v), List.mem_cons_self _ _, ?_⟩
            rw [h2]
            exact ⟨hn, rfl, hc.1, hc.2⟩
        · right; exact ⟨q, List.mem_cons_of_mem _ hq, hrest⟩
      · rw [if_neg hc] at h
        rcases ih h with h1 | ⟨q, hq, hrest⟩
        · left; exact h1
        · right; exact ⟨q, List.mem_cons_of_mem _ hq, hrest⟩

theorem mem_buildPiexif {tags : String → Nat → Option String}
    {d : String → List (Nat × Value)} {ifds : List String} {acc : Doc}
    {p : String × DocVal} (h : p ∈ buildPiexif tags d ifds acc) :
    p ∈ acc ∨ ∃ ifd ∈ ifds, p.1 = sectionName ifd ∧
      ∃ sd, p.2 = DocVal.sec sd ∧ sd ≠ [] := by
  induction ifds generalizing acc with
  | nil => left; simpa [buildPiexif] using h
  | cons ifd rest ih =>
    rw [buildPiexif] at h
    by_cases hsd : buildSec (tags ifd) (d ifd) [] ≠ []
    · rw [if_pos hsd] at h
      rcases ih h with h1 | ⟨i2, hi2, hrest⟩
      · rcases mem_dictInsert h1 with h2 | h2
        · left; exact h2
        · right
          refine ⟨ifd, List.mem_cons_self _ _, ?_⟩
          rw [h2]
          exact ⟨rfl, _, rfl, hsd⟩
      · right; exact ⟨i2, List.mem_cons_of_mem _ hi2, hrest⟩
    · rw [if_neg hsd] at h
      rcases ih h with h1 | ⟨i2, hi2, hrest⟩
      · left; exact h1
      · right; exact ⟨i2, List.mem_cons_of_mem _ hi2, hrest⟩

theorem mem_process_pillow {tags : Nat → Option String}
    {o : Option (List (Nat × Value))} {p : String × DocVal}
    (h : p ∈ process_pillow_exif tags o) :
    p.1 = "EXIF (Pillow)" ∧ ∃ sd, p.2 = DocVal.sec sd ∧ sd ≠ [] ∧
      ∃ exif, o = some exif ∧ sd = buildSec (fun tid => some (pillowTagName tags tid)) exif [] := by
  rcases o with _ | exif
  · simp [process_pillow_exif] at h
  · match exif with
    | [] => simp [process_pillow_exif] at h
    | e :: es =>
      simp only [process_pillow_exif] at h
      by_cases hsd : buildSec (fun tid => some (pillowTagName tags tid)) (e :: es) [] ≠ []
      · rw [if_pos hsd] at h
        simp only [List.mem_singleton] at h
        rw [h]
        exact ⟨rfl, _, rfl, hsd, e :: es, rfl, rfl⟩
      · rw [if_neg hsd] at h
        simp at h

/-- The keys any `extract_m1` entry can carry, and that its value is a
non-empty section. -/
theorem m1_entries {env : ExtractEnv} {p : String × DocVal}
    (h : p ∈ extract_m1 env) :
    (p.1 = "EXIF" ∨ p.1 = "EXIF Details" ∨ p.1 = "GPS Location" ∨
     p.1 = "Thumbnail" ∨ p.1 = "Interoperability" ∨ p.1 = "EXIF (Pillow)") ∧
    ∃ sd, p.2 = DocVal.sec sd ∧ sd ≠ [] := by
  unfold extract_m1 at h
  rcases hpl : env.piexifLoad with _ | d
  · rw [hpl] at h
    obtain ⟨hk, sd, hsec, hsd, _⟩ := mem_process_pillow h
    exact ⟨Or.inr (Or.inr (Or.inr (Or.inr (Or.inr hk)))), sd, hsec, hsd⟩
  · rw [hpl] at h
    unfold process_piexif_data at h
    rcases mem_buildPiexif h with h1 | ⟨ifd, hifd, hname, sd, hsec, hsd⟩
    · simp at h1
    · refine ⟨?_, sd, hsec, hsd⟩
      unfold ifdOrder at hifd
      simp only [List.mem_cons, List.not_mem_nil, or_false] at hifd
      rcases hifd with rfl | rfl | rfl | rfl | rfl <;> simp [sectionName] at hname ⊢ <;> simp [hname]

/-- Entries of the metadata dict after the `File Info` step: the keys are
drawn from the seven known section labels and every value is a non-empty
section. -/
theorem m2_entries {env : ExtractEnv} {p : String × DocVal}
    (h : p ∈ extract_m2 env) :
    (p.1 = "EXIF" ∨ p.1 = "EXIF Details" ∨ p.1 = "GPS Location" ∨
     p.1 = "Thumbnail" ∨ p.1 = "Interoperability" ∨ p.1 = "EXIF (Pillow)" ∨
     p.1 = "File Info") ∧
    ∃ sd, p.2 = DocVal.sec sd ∧ sd ≠ [] := by
  unfold extract_m2 at h
  by_cases hfi : get_file_info env.fs env.path ≠ []
  · rw [if_pos hfi] at h
    rcases mem_dictInsert h with h1 | h1
    · obtain ⟨hk, hv⟩ := m1_entries h1
      exact ⟨by tauto, hv⟩
    · rw [h1]
      exact ⟨by tauto, _, rfl, hfi⟩
  · rw [if_neg hfi] at h
    obtain ⟨hk, hv⟩ := m1_entries h
    exact ⟨by tauto, hv⟩

/-! ## Claim theorems -/

/-- C4: `format_metadata_value` satisfies the spec's concrete cases:
`None` gives `""`; a two-integer pair with nonzero denominator renders the
quotient as an integer string when exact (`(100,1)` gives `"100"`) and as a
6-significant-digit decimal otherwise (`(1,100)` gives `"0.01"`); a zero
denominator returns the numerator as a string (`(100,0)` gives `"100"`,
and in general `(a,0)` gives `str(a)`, and an exact quotient gives the
integer string in general); a byte sequence that UTF-8 decodes has its NUL
bytes stripped (`b"test\x00"` gives `"test"`). -/
theorem C4_format_value_cases :
    format_metadata_value Value.vnone = "".data ∧
    format_metadata_value (Value.tup [Value.vint 100, Value.vint 1]) = "100".data ∧
    format_metadata_value (Value.tup [Value.vint 1, Value.vint 100]) = "0.01".data ∧
    format_metadata_value (Value.tup [Value.vint 100, Value.vint 0]) = "100".data ∧
    format_metadata_value (Value.bytes [116, 101, 115, 116, 0]) = "test".data ∧
    (∀ a : Int, format_metadata_value (Value.tup [Value.vint a, Value.vint 0]) = intToStr a) ∧
    (∀ a b : Int, b ≠ 0 → Int.emod a b = 0 →
      format_metadata_value (Value.tup [Value.vint a, Value.vint b]) =
        intToStr (Int.ediv a b)) := by
  refine ⟨by decide, by decide, by decide, by decide, by decide, ?_, ?_⟩
  · intro a
    simp [format_metadata_value]
  · intro a b hb hdvd
    simp [format_metadata_value, hb, formatRational, hdvd]

/-- C4 witness: the universally quantified conjuncts applied at concrete
inputs with their hypotheses discharged. -/
theorem C4_format_value_cases_witness :
    format_metadata_value (Value.tup [Value.vint 7, Value.vint 0]) = intToStr 7 ∧
    format_metadata_value (Value.tup [Value.vint 6, Value.vint 3]) = intToStr (Int.ediv 6 3) :=
  ⟨C4_format_value_cases.2.2.2.2.2.1 7,
   C4_format_value_cases.2.2.2.2.2.2 6 3 (by decide) (by decide)⟩

/-- C9: the `"<binary data: {N} bytes>"` branch is unreachable — for every
byte sequence the result of `format_metadata_value` is the NUL-stripped
UTF-8 decode when that decode succeeds, and the NUL-stripped latin-1
decode otherwise, because the latin-1 codec decodes every byte and can
never fail. -/
theorem C9_binary_branch_unreachable (bs : List Nat) :
    format_metadata_value (Value.bytes bs) =
      stripNul ((utf8Decode bs).getD (bs.map (fun b => Char.ofNat b))) := by
  cases hu : utf8Decode bs with
  | some d =>
    simp only [format_metadata_value, hu, Option.getD_some]
    by_cases h : stripNul d = [] <;> simp [h]
  | none =>
    simp only [format_metadata_value, hu, latin1Decode, Option.getD_none]
    by_cases h : stripNul (bs.map (fun b => Char.ofNat b)) = [] <;> simp [h]

/-- C9 witness: the equation applied at a byte string that is not valid
UTF-8, evaluated concretely. -/
theorem C9_binary_branch_unreachable_witness :
    format_metadata_value (Value.bytes [255, 97]) =
      stripNul ((utf8Decode [255, 97]).getD ([255, 97].map (fun b => Char.ofNat b))) :=
  C9_binary_branch_unreachable [255, 97]

/-- C5 counterexample: applying `format_metadata_value` a second time to
its own result is not the identity — the bytes `b" a"` decode to `" a"`
(only NULs are stripped on the bytes branch), while the second, string,
pass also strips the surrounding whitespace. -/
theorem C5_idempotence_counterexample :
    format_metadata_value (Value.vstr (format_metadata_value (Value.bytes [32, 97]))) ≠
      format_metadata_value (Value.bytes [32, 97]) := by decide

/-- Is a character removed by the second, string, pass of
`format_metadata_value` (a NUL or Python whitespace)? -/
def strippableChar (c : Char) : Bool := c == nulChar || pyIsSpace c

/-- Neither end of the string is a strippable character. -/
def noJunk (s : List Char) : Bool :=
  (match s.head? with
   | some c => ! strippableChar c
   | none => true) &&
  (match s.getLast? with
   | some c => ! strippableChar c
   | none => true)

/-- C5 (amended): `format_metadata_value` is total by construction, but it
is idempotent only on values whose formatted result carries no leading or
trailing NUL or whitespace characters; re-applying it to its own result
additionally strips such surrounding characters (counterexample:
`b" a"`). -/
theorem C5_format_value_idempotent_when_stripped (v : Value)
    (h : noJunk (format_metadata_value v) = true) :
    format_metadata_value (Value.vstr (format_metadata_value v)) =
      format_metadata_value v := by
  have hstr : format_metadata_value (Value.vstr (format_metadata_value v)) =
      pyStrip (stripNul (format_metadata_value v)) := by
    simp [format_metadata_value]
  rw [hstr]
  unfold noJunk at h
  rw [Bool.and_eq_true] at h
  obtain ⟨h1, h2⟩ := h
  have hh : ∀ c, (format_metadata_value v).head? = some c → strippableChar c = false := by
    intro c hc; rw [hc] at h1; simpa using h1
  have hl : ∀ c, (format_metadata_value v).getLast? = some c → strippableChar c = false := by
    intro c hc; rw [hc] at h2; simpa using h2
  have key : ∀ c, strippableChar c = false →
      (c == nulChar) = false ∧ pyIsSpace c = false := by
    intro c hc
    unfold strippableChar at hc
    exact ⟨by cases hn : (c == nulChar) <;> simp [hn] at hc ⊢,
           by cases hn : pyIsSpace c <;> simp [hn] at hc ⊢⟩
  have e1 : stripNul (format_metadata_value v) = format_metadata_value v :=
    stripBoth_eq_self (fun c hc => (key c (hh c hc)).1) (fun c hc => (key c (hl c hc)).1)
  rw [e1]
  exact stripBoth_eq_self (fun c hc => (key c (hh c hc)).2) (fun c hc => (key c (hl c hc)).2)

/-- C5 witness: idempotence at a concrete value whose result is junk-free. -/
theorem C5_format_value_idempotent_witness :
    format_metadata_value (Value.vstr (format_metadata_value (Value.vint 5))) =
      format_metadata_value (Value.vint 5) :=
  C5_format_value_idempotent_when_stripped (Value.vint 5) (by decide)

/-- Builder for concrete filesystem environments used in witnesses: the
canonicalization oracles are the identity, writes are permitted and
nothing raises. -/
def mkFS (pex isf rd : Path → Bool) (sz : Path → Nat) (mi : Path → Option String)
    (hb : Path → List Nat) (hp : Bool) (im : Path → Option ImgInfo) : FS :=
  { pexists := pex, realpath := id, abspath := id, isfile := isf, readable := rd,
    fsize := sz, mime := mi, headerRaises := fun _ => false, headerB := hb,
    hasPIL := hp, img := im, writableDir := fun _ => true,
    sanitizeRaises := fun _ => false, piexifRemoveOk := fun _ _ => true,
    pillowSaveOk := fun _ => true,
    realpath_idem := fun _ => rfl, realpath_abs := fun _ => rfl }

/-- C2: on any environment where PIL is available and the image opens, the
bounds validator accepts exactly-50000-by-1 images (with an allowed mode
and declared format), and rejects non-positive dimensions, any dimension
above 50,000 pixels, and any pixel count above 100,000,000 — the last even
when both dimensions are individually within the per-side cap. -/
theorem C2_image_bounds (fs : FS) (p : Path) (i : ImgInfo)
    (hPIL : fs.hasPIL = true) (himg : fs.img p = some i) :
    (i.width = 50000 → i.height = 1 → validModes.contains i.mode = true →
       (i.fmt = some "JPEG" ∨ i.fmt = some "TIFF") →
       validate_image_properties fs p = true) ∧
    (i.width ≤ 0 ∨ i.height ≤ 0 → validate_image_properties fs p = false) ∧
    (max_dimension < i.width ∨ max_dimension < i.height →
       validate_image_properties fs p = false) ∧
    (max_pixels < i.width * i.height → validate_image_properties fs p = false) := by
  have hbase : validate_image_properties fs p =
      (if i.width ≤ 0 ∨ i.height ≤ 0 then false
       else if max_dimension < i.width ∨ max_dimension < i.height then false
       else if max_pixels < i.width * i.height then false
       else if ¬ validModes.contains i.mode then false
       else match i.fmt with
            | some f => decide (f = "JPEG" ∨ f = "TIFF")
            | none => false) := by
    simp [validate_image_properties, hPIL, himg]
  refine ⟨?_, ?_, ?_, ?_⟩
  · intro hw hh hm hf
    rw [hbase, hw, hh,
      if_neg (by norm_num), if_neg (by norm_num [max_dimension]),
      if_neg (by norm_num [max_pixels]), if_neg (by simpa using hm)]
    rcases hf with hf | hf <;> rw [hf] <;> rfl
  · intro h
    rw [hbase, if_pos h]
  · intro h
    rw [hbase]
    by_cases h0 : i.width ≤ 0 ∨ i.height ≤ 0
    · rw [if_pos h0]
    · rw [if_neg h0, if_pos h]
  · intro h
    rw [hbase]
    by_cases h0 : i.width ≤ 0 ∨ i.height ≤ 0
    · rw [if_pos h0]
    · rw [if_neg h0]
      by_cases h1 : max_dimension < i.width ∨ max_dimension < i.height
      · rw [if_pos h1]
      · rw [if_neg h1, if_pos h]

/-- Environment whose image is exactly 50000 x 1. -/
def fsDimA : FS := mkFS (fun _ => true) (fun _ => true) (fun _ => true)
  (fun _ => 10) (fun _ => some "image/jpeg") (fun _ => [255, 216, 255, 224]) true
  (fun _ => some ⟨50000, 1, "RGB", some "JPEG"⟩)

/-- Environment whose image is 50001 x 1. -/
def fsDimB : FS := mkFS (fun _ => true) (fun _ => true) (fun _ => true)
  (fun _ => 10) (fun _ => some "image/jpeg") (fun _ => [255, 216, 255, 224]) true
  (fun _ => some ⟨50001, 1, "RGB", some "JPEG"⟩)

/-- Environment whose image has a non-positive width. -/
def fsDimC : FS := mkFS (fun _ => true) (fun _ => true) (fun _ => true)
  (fun _ => 10) (fun _ => some "image/jpeg") (fun _ => [255, 216, 255, 224]) true
  (fun _ => some ⟨0, 5, "RGB", some "JPEG"⟩)

/-- Environment whose image is 10001 x 10001 (each side within the cap,
pixel count above it). -/
def fsDimD : FS := mkFS (fun _ => true) (fun _ => true) (fun _ => true)
  (fun _ => 10) (fun _ => some "image/jpeg") (fun _ => [255, 216, 255, 224]) true
  (fun _ => some ⟨10001, 10001, "RGB", some "JPEG"⟩)

/-- C2 witness: the four cases at concrete environments. -/
theorem C2_image_bounds_witness :
    validate_image_properties fsDimA [] = true ∧
    validate_image_properties fsDimC [] = false ∧
    validate_image_properties fsDimB [] = false ∧
    validate_image_properties fsDimD [] = false :=
  ⟨(C2_image_bounds fsDimA [] _ rfl rfl).1 rfl rfl (by decide) (Or.inl rfl),
   (C2_image_bounds fsDimC [] _ rfl rfl).2.1 (Or.inl (by decide)),
   (C2_image_bounds fsDimB [] _ rfl rfl).2.2.1 (Or.inl (by decide)),
   (C2_image_bounds fsDimD [] _ rfl rfl).2.2.2 (by decide)⟩

theorem orb_true {a b : Bool} (h : (a || b) = true) : a = true ∨ b = true := by
  simpa using h

theorem getLast_of_endsWith {s t : List Char} (h : endsWithL s t = true)
    (ht : t ≠ []) : s.getLast? = t.getLast? := by
  unfold endsWithL at h
  have hd : s.drop (s.length - t.length) = t := eq_of_beq h
  calc s.getLast?
      = (s.take (s.length - t.length) ++ s.drop (s.length - t.length)).getLast? := by
        rw [List.take_append_drop]
    _ = t.getLast? := by
        rw [List.getLast?_append_of_ne_nil _ (by rw [hd]; exact ht), hd]

theorem jpg_not_tif {p : Path} (h : jpgExt p = true) : tifExt p = false := by
  have hg : (pyLower p).getLast? = some 'g' := by
    unfold jpgExt at h
    rcases orb_true h with h1 | h1
    · rw [getLast_of_endsWith h1 (by decide)]; rfl
    · rw [getLast_of_endsWith h1 (by decide)]; rfl
  cases htif : tifExt p
  · rfl
  · exfalso
    unfold tifExt at htif
    rcases orb_true htif with h1 | h1 <;>
      · rw [getLast_of_endsWith h1 (by decide)] at hg
        exact absurd hg (by decide)

/-- C3: a file whose (lowered) name ends in `.jpg`/`.jpeg` but whose
leading bytes carry a TIFF byte-order marker fails the header check; the
header check accepts only when the sniffed magic agrees with the
extension; and when every earlier pipeline stage passes and the header
check fails, `validate_file_security` returns exactly the
format-mismatch error. -/
theorem C3_header_mismatch (hdr : List Nat) (p : Path) (fs : FS) (q : Path) :
    (jpgExt p = true → hdr.take 4 = tiffMagicLE ∨ hdr.take 4 = tiffMagicBE →
       validate_file_header hdr p = false) ∧
    (validate_file_header hdr p = true →
       (hdr.take 3 = jpegMagic ∧ jpgExt p = true) ∨
       ((hdr.take 4 = tiffMagicLE ∨ hdr.take 4 = tiffMagicBE) ∧ tifExt p = true)) ∧
    (fs.pexists q = true → fs.pexists (fs.realpath q) = true →
     fs.isfile (fs.realpath q) = true → fs.readable (fs.realpath q) = true →
     fs.fsize (fs.realpath q) ≠ 0 → fs.fsize (fs.realpath q) ≤ max_file_size →
     is_supported_format (fs.realpath q) = true →
     mimeOk (fs.mime (fs.realpath q)) = true →
     headerCheck fs (fs.realpath q) = false →
     validate_file_security fs q = some "Invalid file header - possible file type mismatch") := by
  refine ⟨?_, ?_, ?_⟩
  · intro hj hm
    have hlen : ¬ hdr.length < 4 := by
      rcases hm with hm | hm <;>
      · have h4 : (hdr.take 4).length = 4 := by rw [hm]; rfl
        rw [List.length_take] at h4
        omega
    have h3 : hdr.take 3 ≠ jpegMagic := by
      have ht : hdr.take 3 = (hdr.take 4).take 3 := by
        simp [List.take_take]
      rcases hm with hm | hm <;>
        · rw [hm] at ht
          intro hc
          rw [ht] at hc
          exact absurd hc (by decide)
    unfold validate_file_header
    rw [if_neg hlen, if_neg (by simp [h3]),
      if_pos (by rcases hm with hm | hm <;> simp [hm]) ]
    exact jpg_not_tif hj
  · intro ht
    unfold validate_file_header at ht
    by_cases h1 : hdr.length < 4
    · rw [if_pos h1] at ht; exact absurd ht (by simp)
    · rw [if_neg h1] at ht
      by_cases h2 : (hdr.take 3 == jpegMagic) = true
      · rw [if_pos (by simp [h2])] at ht
        left; exact ⟨eq_of_beq h2, ht⟩
      · rw [if_neg (by simp [h2])] at ht
        by_cases h3 : (hdr.take 4 == tiffMagicLE || hdr.take 4 == tiffMagicBE) = true
        · rw [if_pos (by simp at h3 ⊢; exact h3)] at ht
          right
          refine ⟨?_, ht⟩
          rcases orb_true h3 with h4 | h4
          · left; exact eq_of_beq h4
          · right; exact eq_of_beq h4
        · rw [if_neg (by simp at h3 ⊢; exact h3)] at ht
          exact absurd ht (by simp)
  · intro h1 h2 h3 h4 h5 h6 h7 h8 h9
    unfold validate_file_security
    rw [if_neg (by simp [h1]), if_neg (by simp [h2]), if_neg (by simp [h3]),
      if_neg (by simp [h4]), if_neg h5, if_neg (Nat.not_lt.mpr h6),
      if_neg (by simp [h7]), if_neg (by simp [h8]), if_pos (by simp [h9])]

/-- Environment holding a TIFF-marked file named with a `.jpg` extension. -/
def fsHdr : FS := mkFS (fun _ => true) (fun _ => true) (fun _ => true)
  (fun _ => 10) (fun _ => some "image/jpeg") (fun _ => [73, 73, 42, 0]) true
  (fun _ => some ⟨100, 50, "RGB", some "JPEG"⟩)

/-- C3 witness: the three conjuncts applied at concrete inputs. -/
theorem C3_header_mismatch_witness :
    validate_file_header [73, 73, 42, 0] "a.jpg".data = false ∧
    (([255, 216, 255, 224] : List Nat).take 3 = jpegMagic ∧ jpgExt "a.jpg".data = true ∨
     (([255, 216, 255, 224] : List Nat).take 4 = tiffMagicLE ∨
      ([255, 216, 255, 224] : List Nat).take 4 = tiffMagicBE) ∧ tifExt "a.jpg".data = true) ∧
    validate_file_security fsHdr "a.jpg".data =
      some "Invalid file header - possible file type mismatch" :=
  ⟨(C3_header_mismatch [73, 73, 42, 0] "a.jpg".data fsHdr "a.jpg".data).1
      (by decide) (Or.inl (by decide)),
   (C3_header_mismatch [255, 216, 255, 224] "a.jpg".data fsHdr "a.jpg".data).2.1 (by decide),
   (C3_header_mismatch [0] [] fsHdr "a.jpg".data).2.2 rfl rfl rfl rfl
      (by decide) (by decide) (by decide) (by decide) (by decide)⟩

/-- C6: `validate_file_security` is the fixed chain path checks, then
size checks, then format/MIME/header checks, then image bounds check,
short-circuiting on the first failure: it returns `none` exactly when
every stage passes; with the path stage passed, a 0-byte file yields the
empty-file error whatever the later (format/decode) oracles report, and an
over-cap size yields the too-large error.  (The statement is quantified
over every environment `fs`, so the early rejections are independent of
the format, header and image oracles.) -/
theorem C6_pipeline_order (fs : FS) (p : Path) :
    (validate_file_security fs p = none ↔
      (fs.pexists p = true ∧ fs.pexists (fs.realpath p) = true ∧
       fs.isfile (fs.realpath p) = true ∧ fs.readable (fs.realpath p) = true ∧
       fs.fsize (fs.realpath p) ≠ 0 ∧ fs.fsize (fs.realpath p) ≤ max_file_size ∧
       is_supported_format (fs.realpath p) = true ∧
       mimeOk (fs.mime (fs.realpath p)) = true ∧
       headerCheck fs (fs.realpath p) = true ∧
       validate_image_properties fs (fs.realpath p) = true)) ∧
    (fs.pexists p = true → fs.pexists (fs.realpath p) = true →
     fs.isfile (fs.realpath p) = true → fs.readable (fs.realpath p) = true →
     fs.fsize (fs.realpath p) = 0 →
     validate_file_security fs p = some "File is empty") ∧
    (fs.pexists p = true → fs.pexists (fs.realpath p) = true →
     fs.isfile (fs.realpath p) = true → fs.readable (fs.realpath p) = true →
     max_file_size < fs.fsize (fs.realpath p) →
     validate_file_security fs p = some tooLargeMsg) := by
  refine ⟨⟨?_, ?_⟩, ?_, ?_⟩
  · intro h
    unfold validate_file_security at h
    by_cases h1 : fs.pexists p = true
    case neg => rw [if_pos h1] at h; exact absurd h (by simp)
    rw [if_neg (by simp [h1])] at h
    by_cases h2 : fs.pexists (fs.realpath p) = true
    case neg => rw [if_pos h2] at h; exact absurd h (by simp)
    rw [if_neg (by simp [h2])] at h
    by_cases h3 : fs.isfile (fs.realpath p) = true
    case neg => rw [if_pos h3] at h; exact absurd h (by simp)
    rw [if_neg (by simp [h3])] at h
    by_cases h4 : fs.readable (fs.realpath p) = true
    case neg => rw [if_pos h4] at h; exact absurd h (by simp)
    rw [if_neg (by simp [h4])] at h
    by_cases h5 : fs.fsize (fs.realpath p) = 0
    case pos => rw [if_pos h5] at h; exact absurd h (by simp)
    rw [if_neg h5] at h
    by_cases h6 : max_file_size < fs.fsize (fs.realpath p)
    case pos => rw [if_pos h6] at h; exact absurd h (by simp)
    rw [if_neg h6] at h
    by_cases h7 : is_supported_format (fs.realpath p) = true
    case neg => rw [if_pos h7] at h; exact absurd h (by simp)
    rw [if_neg (by simp [h7])] at h
    by_cases h8 : mimeOk (fs.mime (fs.realpath p)) = true
    case neg => rw [if_pos h8] at h; exact absurd h (by simp)
    rw [if_neg (by simp [h8])] at h
    by_cases h9 : headerCheck fs (fs.realpath p) = true
    case neg => rw [if_pos h9] at h; exact absurd h (by simp)
    rw [if_neg (by simp [h9])] at h
    by_cases h10 : validate_image_properties fs (fs.realpath p) = true
    case neg => rw [if_pos h10] at h; exact absurd h (by simp)
    exact ⟨h1, h2, h3, h4, h5, Nat.not_lt.mp h6, h7, h8, h9, h10⟩
  · intro hall
    obtain ⟨h1, h2, h3, h4, h5, h6, h7, h8, h9, h10⟩ := hall
    unfold validate_file_security
    rw [if_neg (by simp [h1]), if_neg (by simp [h2]), if_neg (by simp [h3]),
      if_neg (by simp [h4]), if_neg h5, if_neg (Nat.not_lt.mpr h6),
      if_neg (by simp [h7]), if_neg (by simp [h8]), if_neg (by simp [h9]),
      if_neg (by simp [h10])]
  · intro h1 h2 h3 h4 h5
    unfold validate_file_security
    rw [if_neg (by simp [h1]), if_neg (by simp [h2]), if_neg (by simp [h3]),
      if_neg (by simp [h4]), if_pos h5]
  · intro h1 h2 h3 h4 h6
    have h5 : fs.fsize (fs.realpath p) ≠ 0 := by
      unfold max_file_size at h6
      omega
    unfold validate_file_security
    rw [if_neg (by simp [h1]), if_neg (by simp [h2]), if_neg (by simp [h3]),
      if_neg (by simp [h4]), if_neg h5, if_pos h6]

/-- Environment where every validation stage passes. -/
def fsPassAll : FS := mkFS (fun _ => true) (fun _ => true) (fun _ => true)
  (fun _ => 10) (fun _ => some "image/jpeg") (fun _ => [255, 216, 255, 224]) true
  (fun _ => some ⟨100, 50, "RGB", some "JPEG"⟩)

/-- Environment holding a 0-byte file. -/
def fsEmptyFile : FS := mkFS (fun _ => true) (fun _ => true) (fun _ => true)
  (fun _ => 0) (fun _ => some "image/jpeg") (fun _ => [255, 216, 255, 224]) true
  (fun _ => some ⟨100, 50, "RGB", some "JPEG"⟩)

/-- Environment holding a file one byte over the 100 MiB cap. -/
def fsBigFile : FS := mkFS (fun _ => true) (fun _ => true) (fun _ => true)
  (fun _ => 104857601) (fun _ => some "image/jpeg") (fun _ => [255, 216, 255, 224]) true
  (fun _ => some ⟨100, 50, "RGB", some "JPEG"⟩)

/-- C6 witness: a fully passing environment, a 0-byte file and an
over-cap file, at concrete inputs. -/
theorem C6_pipeline_order_witness :
    validate_file_security fsPassAll "a.jpg".data = none ∧
    validate_file_security fsEmptyFile "a.jpg".data = some "File is empty" ∧
    validate_file_security fsBigFile "a.jpg".data = some tooLargeMsg :=
  ⟨(C6_pipeline_order fsPassAll "a.jpg".data).1.mpr
      ⟨rfl, rfl, rfl, rfl, by decide, by decide, by decide, by decide, by decide, by decide⟩,
   (C6_pipeline_order fsEmptyFile "a.jpg".data).2.1 rfl rfl rfl rfl rfl,
   (C6_pipeline_order fsBigFile "a.jpg".data).2.2 rfl rfl rfl rfl (by decide)⟩

/-- C1: whenever the canonicalized output path equals the canonicalized
input path — in particular whenever the two arguments are the same string
— `validate_output_path` rejects, and `remove_metadata` returns `false`
having performed no write.  Uses only the facts that `realpath` is
idempotent and absorbs `abspath`. -/
theorem C1_no_overwrite (fs : FS) (inp outp : Path)
    (h : fs.realpath outp = fs.realpath inp) :
    validate_output_path fs outp inp ≠ none ∧
    remove_metadata fs inp outp = (false, []) := by
  have hvo : validate_output_path fs outp inp ≠ none := by
    unfold validate_output_path
    by_cases h0 : outp = []
    · rw [if_pos h0]; simp
    · rw [if_neg h0]
      by_cases h1 : sanitize_path fs outp = []
      · rw [if_pos h1]; simp
      · rw [if_neg h1]
        have hfin : fs.realpath (sanitize_path fs outp) = fs.realpath inp := by
          unfold sanitize_path at h1 ⊢
          rw [if_neg h0] at h1 ⊢
          by_cases hr : fs.sanitizeRaises outp = true
          · rw [if_pos (by simp [hr])] at h1
            exact absurd rfl h1
          · rw [if_neg (by simp [hr])]
            rw [fs.realpath_idem, fs.realpath_abs, h]
        by_cases h2 : fs.pexists (dirnameP (sanitize_path fs outp)) = true
        · rw [if_neg (by simp [h2])]
          by_cases h3 : fs.writableDir (dirnameP (sanitize_path fs outp)) = true
          · rw [if_neg (by simp [h3]), if_pos hfin]; simp
          · rw [if_pos (by simp [h3])]; simp
        · rw [if_pos (by simp [h2])]; simp
  refine ⟨hvo, ?_⟩
  obtain ⟨e, he⟩ := Option.ne_none_iff_exists'.mp hvo
  cases hvf : validate_file_security fs inp with
  | some msg => simp [remove_metadata, hvf]
  | none => simp [remove_metadata, hvf, he]

/-- Environment for the same-path removal scenario. -/
def fsC1 : FS := mkFS (fun _ => true) (fun _ => true) (fun _ => true)
  (fun _ => 10) (fun _ => some "image/jpeg") (fun _ => [255, 216, 255, 224]) true
  (fun _ => some ⟨100, 50, "RGB", some "JPEG"⟩)

/-- C1 witness: `remove_metadata(p, p)` at a concrete path on a concrete
environment (where input validation itself passes). -/
theorem C1_no_overwrite_witness :
    validate_output_path fsC1 "a.jpg".data "a.jpg".data ≠ none ∧
    remove_metadata fsC1 "a.jpg".data "a.jpg".data = (false, []) :=
  C1_no_overwrite fsC1 "a.jpg".data "a.jpg".data rfl

/-- Environment where validation passes without PIL bounds data and the
primary decode raises while the Pillow fallback yields one Make tag. -/
def fsNoImg : FS := mkFS (fun _ => true) (fun _ => true) (fun _ => true)
  (fun _ => 10) (fun _ => some "image/jpeg") (fun _ => [255, 216, 255, 224]) false
  (fun _ => none)

/-- Extraction environment exercising the Pillow fallback path. -/
def envPillow : ExtractEnv :=
  { fs := fsNoImg, path := "a.jpg".data,
    piexifLoad := none, piexifTags := fun _ _ => none,
    pillowTags := fun t => if t = 271 then some "Make" else none,
    pillowOpen := some [(271, Value.vstr "X".data)] }

/-- C7 counterexample: with the primary decode failing and the fallback
producing a Make tag, the extracted document labels the fallback section
`"EXIF (Pillow)"`, not `"EXIF (fallback)"` as the claim states. -/
theorem C7_fallback_label_counterexample :
    extract_metadata envPillow = [("EXIF (Pillow)", DocVal.sec [("Make", "X".data)])] ∧
    "EXIF (fallback)" ∉ (extract_metadata envPillow).map Prod.fst := by decide

/-- C7 (amended): the fallback tags land in one single section labelled
exactly `"EXIF (Pillow)"` (the label `"EXIF (fallback)"` never occurs in
any extracted document), with the same per-tag formatting
(`format_metadata_value`) and the same empty-value omission rule
(`formatted_value and formatted_value.strip()`) as the primary path. -/
theorem C7_fallback_section_label (tags : Nat → Option String)
    (o : Option (List (Nat × Value))) (env : ExtractEnv)
    (p : String × DocVal) (hp : p ∈ process_pillow_exif tags o) :
    p.1 = "EXIF (Pillow)" ∧
    process_pillow_exif tags o = [p] ∧
    (∃ sd exif, p.2 = DocVal.sec sd ∧ sd ≠ [] ∧ o = some exif ∧
      ∀ p2 ∈ sd, (∃ q ∈ exif, p2.1 = pillowTagName tags q.1 ∧
          p2.2 = format_metadata_value q.2) ∧ p2.2 ≠ [] ∧ pyStrip p2.2 ≠ []) ∧
    "EXIF (fallback)" ∉ (extract_metadata env).map Prod.fst := by
  have hnof : "EXIF (fallback)" ∉ (extract_metadata env).map Prod.fst := by
    intro hmem
    rw [List.mem_map] at hmem
    obtain ⟨q, hq, hkey⟩ := hmem
    cases hv : validate_file_security env.fs env.path with
    | some e =>
      have hdoc : extract_metadata env = [("error", DocVal.msg e)] := by
        unfold extract_metadata; rw [hv]
      rw [hdoc] at hq
      simp only [List.mem_singleton] at hq
      rw [hq] at hkey
      exact absurd hkey (by simp)
    | none =>
      have hdoc : extract_metadata env =
          (if extract_m2 env ≠ [] then extract_m2 env
           else [("info", DocVal.msg "No metadata found")]) := by
        unfold extract_metadata; rw [hv]
      rw [hdoc] at hq
      by_cases hm2 : extract_m2 env ≠ []
      · rw [if_pos hm2] at hq
        rcases (m2_entries hq).1 with h | h | h | h | h | h | h <;>
          (rw [hkey] at h; exact absurd h (by decide))
      · rw [if_neg hm2] at hq
        simp only [List.mem_singleton] at hq
        rw [hq] at hkey
        exact absurd hkey (by simp)
  rcases o with _ | exif
  · simp [process_pillow_exif] at hp
  · match exif with
    | [] => simp [process_pillow_exif] at hp
    | e :: es =>
      simp only [process_pillow_exif] at hp ⊢
      by_cases hsd : buildSec (fun tid => some (pillowTagName tags tid)) (e :: es) [] ≠ []
      · rw [if_pos hsd] at hp ⊢
        simp only [List.mem_singleton] at hp
        subst hp
        refine ⟨rfl, rfl, ⟨_, e :: es, rfl, hsd, rfl, ?_⟩, hnof⟩
        intro p2 hp2
        rcases mem_buildSec hp2 with h0 | ⟨q, hq, hname, hfv, hne, hst⟩
        · simp at h0
        · refine ⟨⟨q, hq, ?_, hfv⟩, hne, hst⟩
          simp only [Option.some.injEq] at hname
          exact hname.symm
      · rw [if_neg hsd] at hp
        simp at hp

/-- C7 witness: the amended statement at the concrete fallback
environment, with the membership hypothesis discharged. -/
theorem C7_fallback_section_label_witness :
    (("EXIF (Pillow)", DocVal.sec [("Make", "X".data)]) : String × DocVal).1 = "EXIF (Pillow)" ∧
    process_pillow_exif envPillow.pillowTags envPillow.pillowOpen =
      [("EXIF (Pillow)", DocVal.sec [("Make", "X".data)])] ∧
    (∃ sd exif, (("EXIF (Pillow)", DocVal.sec [("Make", "X".data)]) : String × DocVal).2 =
        DocVal.sec sd ∧ sd ≠ [] ∧ envPillow.pillowOpen = some exif ∧
      ∀ p2 ∈ sd, (∃ q ∈ exif, p2.1 = pillowTagName envPillow.pillowTags q.1 ∧
          p2.2 = format_metadata_value q.2) ∧ p2.2 ≠ [] ∧ pyStrip p2.2 ≠ []) ∧
    "EXIF (fallback)" ∉ (extract_metadata envPillow).map Prod.fst :=
  C7_fallback_section_label envPillow.pillowTags envPillow.pillowOpen envPillow
    ("EXIF (Pillow)", DocVal.sec [("Make", "X".data)]) (by decide)

/-- Environment where validation passes but nothing (decoders, file info)
produces any data. -/
def fsNoData : FS := mkFS (fun _ => true) (fun _ => true) (fun _ => true)
  (fun _ => 10) (fun _ => some "image/jpeg") (fun _ => [255, 216, 255, 224]) false
  (fun _ => none)

/-- Extraction environment producing no metadata at all. -/
def envNoMeta : ExtractEnv :=
  { fs := fsNoData, path := "a.jpg".data,
    piexifLoad := none, piexifTags := fun _ _ => none,
    pillowTags := fun _ => none, pillowOpen := none }

/-- C8: every extracted document (1) never mixes the `error` key with a
section, (2) has only non-empty sections, and (3) is never the empty
mapping — when no section was populated and there is no error it is
exactly the `info` document. -/
theorem C8_document_invariants (env : ExtractEnv) :
    (¬ ("error" ∈ (extract_metadata env).map Prod.fst ∧
        ∃ k sd, (k, DocVal.sec sd) ∈ extract_metadata env)) ∧
    (∀ k sd, (k, DocVal.sec sd) ∈ extract_metadata env → sd ≠ []) ∧
    extract_metadata env ≠ [] ∧
    ((∀ k v, (k, v) ∈ extract_metadata env → ∀ sd, v ≠ DocVal.sec sd) →
     "error" ∉ (extract_metadata env).map Prod.fst →
     extract_metadata env = [("info", DocVal.msg "No metadata found")]) := by
  cases hv : validate_file_security env.fs env.path with
  | some e =>
    have hdoc : extract_metadata env = [("error", DocVal.msg e)] := by
      unfold extract_metadata; rw [hv]
    rw [hdoc]
    refine ⟨?_, ?_, by simp, ?_⟩
    · rintro ⟨-, k, sd, hmem⟩
      simp only [List.mem_singleton] at hmem
      exact absurd hmem (by simp)
    · intro k sd hmem
      simp only [List.mem_singleton] at hmem
      exact absurd hmem (by simp)
    · intro _ herr
      exact absurd (by simp) herr
  | none =>
    have hdoc : extract_metadata env =
        (if extract_m2 env ≠ [] then extract_m2 env
         else [("info", DocVal.msg "No metadata found")]) := by
      unfold extract_metadata; rw [hv]
    by_cases hm2 : extract_m2 env ≠ []
    · rw [hdoc, if_pos hm2]
      refine ⟨?_, ?_, hm2, ?_⟩
      · rintro ⟨hk, -⟩
        rw [List.mem_map] at hk
        obtain ⟨q, hq, hkey⟩ := hk
        rcases (m2_entries hq).1 with h | h | h | h | h | h | h <;>
          (rw [hkey] at h; exact absurd h (by decide))
      · intro k sd hmem
        obtain ⟨sd2, hsec, hne⟩ := (m2_entries hmem).2
        injection hsec with hh
        rw [hh]
        exact hne
      · intro hnosec herr
        exfalso
        obtain ⟨q, hq⟩ := List.exists_mem_of_ne_nil _ hm2
        obtain ⟨sd, hsec, -⟩ := (m2_entries hq).2
        exact hnosec q.1 q.2 (by simpa using hq) sd hsec
    · rw [hdoc, if_neg hm2]
      refine ⟨?_, ?_, by simp, fun _ _ => rfl⟩
      · rintro ⟨-, k, sd, hmem⟩
        simp only [List.mem_singleton] at hmem
        exact absurd hmem (by simp)
      · intro k sd hmem
        simp only [List.mem_singleton] at hmem
        exact absurd hmem (by simp)

/-- C8 witness: the non-empty-section invariant applied at the fallback
environment, and the info-document invariant applied at the environment
producing no metadata, hypotheses discharged concretely. -/
theorem C8_document_invariants_witness :
    ([("Make", "X".data)] : List (String × List Char)) ≠ [] ∧
    extract_metadata envNoMeta = [("info", DocVal.msg "No metadata found")] :=
  ⟨(C8_document_invariants envPillow).2.1 "EXIF (Pillow)" [("Make", "X".data)] (by decide),
   (C8_document_invariants envNoMeta).2.2.2
     (by
       intro k v hm sd
       rw [(by decide :
         extract_metadata envNoMeta = [("info", DocVal.msg "No metadata found")])] at hm
       simp only [List.mem_singleton, Prod.mk.injEq] at hm
       rw [hm.2]
       simp)
     (by decide)⟩

/-- C10: when input validation passes but both the primary (piexif) and
the fallback (Pillow) decoders raise, the extracted document is still a
non-error document: exactly the `File Info` section when file-info
gathering succeeds, and the `info` document otherwise; moreover the
`error` key can only ever come from a failed security validation. -/
theorem C10_decoder_failures_no_error (env : ExtractEnv)
    (hval : validate_file_security env.fs env.path = none)
    (hpi : env.piexifLoad = none) (hpo : env.pillowOpen = none) :
    (get_file_info env.fs env.path ≠ [] →
       extract_metadata env =
         [("File Info", DocVal.sec (get_file_info env.fs env.path))]) ∧
    (get_file_info env.fs env.path = [] →
       extract_metadata env = [("info", DocVal.msg "No metadata found")]) ∧
    (∀ env2 : ExtractEnv, "error" ∈ (extract_metadata env2).map Prod.fst →
       validate_file_security env2.fs env2.path ≠ none) := by
  have hm1 : extract_m1 env = [] := by
    simp [extract_m1, hpi, hpo, process_pillow_exif]
  have hswitch : extract_metadata env =
      (if extract_m2 env ≠ [] then extract_m2 env
       else [("info", DocVal.msg "No metadata found")]) := by
    unfold extract_metadata; rw [hval]
  refine ⟨?_, ?_, ?_⟩
  · intro hfi
    have hm2 : extract_m2 env =
        [("File Info", DocVal.sec (get_file_info env.fs env.path))] := by
      unfold extract_m2
      rw [if_pos hfi, hm1]
      rfl
    rw [hswitch, if_pos (by rw [hm2]; simp), hm2]
  · intro hfi
    have hm2 : extract_m2 env = [] := by
      unfold extract_m2
      rw [if_neg (by simp [hfi]), hm1]
    rw [hswitch, if_neg (by simp [hm2])]
  · intro env2 hk hv2
    rw [List.mem_map] at hk
    obtain ⟨q, hq, hkey⟩ := hk
    have hdoc : extract_metadata env2 =
        (if extract_m2 env2 ≠ [] then extract_m2 env2
         else [("info", DocVal.msg "No metadata found")]) := by
      unfold extract_metadata; rw [hv2]
    rw [hdoc] at hq
    by_cases hm2 : extract_m2 env2 ≠ []
    · rw [if_pos hm2] at hq
      rcases (m2_entries hq).1 with h | h | h | h | h | h | h <;>
        (rw [hkey] at h; exact absurd h (by decide))
    · rw [if_neg hm2] at hq
      simp only [List.mem_singleton] at hq
      rw [hq] at hkey
      exact absurd hkey (by decide)

/-- Extraction environment with both decoders raising but file info
available. -/
def envFileInfoOnly : ExtractEnv :=
  { fs := fsPassAll, path := "a.jpg".data,
    piexifLoad := none, piexifTags := fun _ _ => none,
    pillowTags := fun _ => none, pillowOpen := none }

/-- Extraction environment with a nonexistent file (validation fails). -/
def envNotExist : ExtractEnv :=
  { fs := mkFS (fun _ => false) (fun _ => true) (fun _ => true)
      (fun _ => 10) (fun _ => some "image/jpeg") (fun _ => [255, 216, 255, 224]) true
      (fun _ => some ⟨100, 50, "RGB", some "JPEG"⟩),
    path := "a.jpg".data,
    piexifLoad := none, piexifTags := fun _ _ => none,
    pillowTags := fun _ => none, pillowOpen := none }

/-- C10 witness: both decoder-failure outcomes and the error-only-from-
validation conjunct, at concrete environments. -/
theorem C10_decoder_failures_no_error_witness :
    extract_metadata envFileInfoOnly =
      [("File Info", DocVal.sec (get_file_info envFileInfoOnly.fs envFileInfoOnly.path))] ∧
    extract_metadata envNoMeta = [("info", DocVal.msg "No metadata found")] ∧
    validate_file_security envNotExist.fs envNotExist.path ≠ none :=
  ⟨(C10_decoder_failures_no_error envFileInfoOnly (by decide) rfl rfl).1 (by decide),
   (C10_decoder_failures_no_error envNoMeta (by decide) rfl rfl).2.1 (by decide),
   (C10_decoder_failures_no_error envFileInfoOnly (by decide) rfl rfl).2.2 envNotExist
     (by decide)⟩

end Scramble
